import Mathlib

/-!
Shallow embedding of `src/tffilesync.py`: a one-directional file syncer that
pulls a remote directory into a local directory at construction and then
watches the local directory from a background loop, pushing changes back to
the remote directory until stopped.

Modelling conventions:
* `_FileStat` becomes `FileStat`; sizes are `Nat`, modification times are
  `Int` nanosecond counts.
* Python dicts of directory entries become association lists with unique
  keys; `lookupEnt` and `upsert` mirror `d[k]` reads and `d[k] = v` writes.
* Backoff sleep durations are exact rationals: the float literal `1.5` is
  exactly `3/2`, and every power `1.5 ** r` for `r < 10` is exactly
  representable in binary floating point. Wall-clock timestamps
  (`time.time()`) are modelled as integer second counts: the loop uses the
  clock only to compare an elapsed difference against the 6-minute threshold,
  so an integer clock expresses every behaviour the claims are about.
* The storage layer (`gfile`) is an oracle: each copy attempt receives an
  outcome (success, a recoverable `OpError` that the code catches, or any
  other exception, which propagates), and a directory listing either returns
  entries or raises.
* Each wake-up of the loop's condition-variable wait consumes one
  `PassInput`: the value of the stopping flag observed after the wait, the
  current time, the local listing result, and the eventual per-file outcome
  of the retrying copier.
-/

/-- `_FileStat` from tffilesync.py: `(length, mtime_nsec, is_directory)`. -/
structure FileStat where
  length : Nat
  mtime_nsec : Int
  is_directory : Bool
deriving DecidableEq

/-- Python `name in dir_ents` / `dir_ents[name]` on an association list. -/
def lookupEnt : List (String × FileStat) → String → Option FileStat
  | [], _ => none
  | (n, s) :: rest, name => if n = name then some s else lookupEnt rest name

/-- Python `dir_ents[name] = stat`: replace the binding in place if the key is
present, otherwise append it. -/
def upsert : List (String × FileStat) → String → FileStat → List (String × FileStat)
  | [], name, stat => [(name, stat)]
  | (n, s) :: rest, name, stat =>
    if n = name then (name, stat) :: rest else (n, s) :: upsert rest name stat

/-- `_has_file` (tffilesync.py lines 91-99), the strict change detector used by
the watch loop: the entry must be present with exactly equal length and exactly
equal `mtime_nsec`. A pure comparison with no effects. -/
def has_file (dir_ents : List (String × FileStat)) (name : String)
    (want_stat : FileStat) : Bool :=
  match lookupEnt dir_ents name with
  | none => false
  | some got_stat =>
    if got_stat.length ≠ want_stat.length then false
    else if got_stat.mtime_nsec ≠ want_stat.mtime_nsec then false
    else true

/-- Modelled from the spec: the repository's second, near-duplicate watcher
variant is not included under src/; per the spec it differs from `_has_file`
only in the timestamp comparison, treating modification times within 3 seconds
(3 000 000 000 ns) of each other as equal. -/
def has_file_tolerant (dir_ents : List (String × FileStat)) (name : String)
    (want_stat : FileStat) : Bool :=
  match lookupEnt dir_ents name with
  | none => false
  | some got_stat =>
    if got_stat.length ≠ want_stat.length then false
    else if 3000000000 < (got_stat.mtime_nsec - want_stat.mtime_nsec).natAbs then false
    else true

/-- Modelled from the spec: the selectable change-detector mode; src/ contains
only the strict variant, the tolerant one lives in the missing duplicate file. -/
inductive DetectMode
  | strict
  | tolerant
deriving DecidableEq

/-- Modelled from the spec: `needsCopy(snapshot, name, candidateStat)` in the
selected mode, the negation of the corresponding presence check. -/
def needs_copy (mode : DetectMode) (ents : List (String × FileStat))
    (name : String) (want : FileStat) : Bool :=
  match mode with
  | DetectMode.strict => !has_file ents name want
  | DetectMode.tolerant => !has_file_tolerant ents name want

/-- Outcome the storage layer gives one `gfile.copy` attempt. -/
inductive CopyAttempt
  | success
  | opError
  | otherError
deriving DecidableEq

/-- Observable actions of `_copy_file`: a copy attempt (with its retry index)
or a backoff sleep of the given duration in seconds. -/
inductive CopyEvent
  | attempt (r : Nat)
  | sleep (d : ℚ)
deriving DecidableEq

/-- `1.5 ** r`, exactly. -/
def sleep_len (r : Nat) : ℚ := (3 / 2 : ℚ) ^ r

def sleepDur : CopyEvent → Option ℚ
  | CopyEvent.sleep d => some d
  | CopyEvent.attempt _ => none

def isAttempt : CopyEvent → Bool
  | CopyEvent.attempt _ => true
  | CopyEvent.sleep _ => false

/-- What one call of `_copy_file` did: its event sequence in order, and whether
some attempt succeeded. -/
structure CopyTrace where
  events : List CopyEvent
  succeeded : Bool
deriving DecidableEq

def numAttempts (t : CopyTrace) : Nat := t.events.countP isAttempt

/-- The events of `k` consecutive failed attempts starting at retry index `r`:
each attempt is followed by its backoff sleep. -/
def retry_events : Nat → Nat → List CopyEvent
  | 0, _ => []
  | k + 1, r => CopyEvent.attempt r :: CopyEvent.sleep (sleep_len r) :: retry_events k (r + 1)

/-- The `for retries in range(...)` loop of `_copy_file` (lines 40-49) with
`fuel` iterations left and current retry index `r`: try the copy; on success
return immediately; on a recoverable `OpError` sleep `1.5 ** retries` and
continue; any other exception propagates (`none`). Falling off the end of the
loop returns normally with no success. -/
def copy_file_go (outcomes : Nat → CopyAttempt) : Nat → Nat → Option CopyTrace
  | 0, _ => some ⟨[], false⟩
  | fuel + 1, r =>
    match outcomes r with
    | CopyAttempt.success => some ⟨[CopyEvent.attempt r], true⟩
    | CopyAttempt.opError =>
      (copy_file_go outcomes fuel (r + 1)).map
        (fun t => ⟨CopyEvent.attempt r :: CopyEvent.sleep (sleep_len r) :: t.events, t.succeeded⟩)
    | CopyAttempt.otherError => none

/-- `_copy_file` (lines 37-49): `for retries in range(0, 10)`. -/
def copy_file (outcomes : Nat → CopyAttempt) : Option CopyTrace :=
  copy_file_go outcomes 10 0

/-- `_FULL_SYNC_INTERVAL_S = 6 * 60` (line 52), in seconds. -/
def FULL_SYNC_INTERVAL_S : Int := 6 * 60

/-- The loop-owned state of `Syncer._loop` plus the mutex-guarded fields the
loop touches: the remembered snapshot `src_ents`, the pass counter `_epoch`,
`last_full_sync_time`, and the `done` flag of the `while not done` loop. -/
structure LoopState where
  src_ents : List (String × FileStat)
  epoch : Nat
  last_full_sync_time : Int
  done : Bool
deriving DecidableEq

/-- Everything one wake-up of the loop observes: the stopping flag after the
wait, `time.time()`, the local listing result (or a raised listing/stat
error), and whether the retrying copier eventually succeeds for each name. -/
structure PassInput where
  stopping : Bool
  now : Int
  listing : Except Unit (List (String × FileStat))
  copyOk : String → Bool

/-- Observable summary of one loop iteration. -/
structure PassRecord where
  epoch : Nat
  stopObserved : Bool
  fullSync : Bool
  diffBase : List (String × FileStat)
  copied : List (String × Bool)
  listFailed : Bool
deriving DecidableEq

inductive IterStatus
  | cont
  | stop
  | crash
deriving DecidableEq

inductive RunOutcome
  | running
  | stopped
  | crashed
deriving DecidableEq

/-- Result of running the loop over a trace of wake-ups: the final state, one
record per executed pass, and how (or whether) the loop ended. -/
structure RunResult where
  final : LoopState
  records : List PassRecord
  outcome : RunOutcome
deriving DecidableEq

/-- `Syncer.__init__`: the loop starts with an empty snapshot, `_epoch = 0`,
`last_full_sync_time = time.time()` (the loop entry time `t0`), not done. -/
def init_state (t0 : Int) : LoopState := ⟨[], 0, t0, false⟩

/-- Line 114: `now - last_full_sync_time >= _FULL_SYNC_INTERVAL_S`. -/
def full_sync_due (st : LoopState) (inp : PassInput) : Bool :=
  decide (FULL_SYNC_INTERVAL_S ≤ inp.now - st.last_full_sync_time)

/-- The snapshot this pass diffs against: cleared when stopping was observed
(lines 108-111, the final full pass) and cleared by the periodic full-sync
check (lines 113-115). -/
def diff_base (st : LoopState) (inp : PassInput) : List (String × FileStat) :=
  if full_sync_due st inp then [] else if inp.stopping then [] else st.src_ents

/-- Lines 117-122: for each entry of the fresh local listing that fails the
strict `_has_file` check, push it with `_copy_file` and set `src_ents[name]`
to the freshly observed stat. The snapshot update does not depend on the
copy's outcome; the outcome is merely recorded alongside the copied name. -/
def pass_body (copyOk : String → Bool) (src : List (String × FileStat)) :
    List (String × FileStat) → List (String × FileStat) × List (String × Bool)
  | [] => (src, [])
  | (name, ent) :: rest =>
    if has_file src name ent then pass_body copyOk src rest
    else
      ((pass_body copyOk (upsert src name ent) rest).1,
       (name, copyOk name) :: (pass_body copyOk (upsert src name ent) rest).2)

/-- One iteration of `Syncer._loop` (lines 104-122): increment `_epoch`, wait,
read the stopping flag (clearing the snapshot and setting `done` if set),
apply the periodic full-sync check, then list the local directory and run the
diff-and-push body. A raised listing error is uncaught and crashes the loop
thread; the pass performs no copies in that case. -/
def loop_iter (st : LoopState) (inp : PassInput) : PassRecord × LoopState × IterStatus :=
  match inp.listing with
  | Except.error _ =>
    (⟨st.epoch + 1, inp.stopping, full_sync_due st inp, diff_base st inp, [], true⟩,
     ⟨diff_base st inp, st.epoch + 1, st.last_full_sync_time, st.done || inp.stopping⟩,
     IterStatus.crash)
  | Except.ok new_ents =>
    (⟨st.epoch + 1, inp.stopping, full_sync_due st inp, diff_base st inp,
      (pass_body inp.copyOk (diff_base st inp) new_ents).2, false⟩,
     ⟨(pass_body inp.copyOk (diff_base st inp) new_ents).1, st.epoch + 1,
      st.last_full_sync_time, st.done || inp.stopping⟩,
     if st.done || inp.stopping then IterStatus.stop else IterStatus.cont)

/-- `while not done:` - run the loop over a trace of wake-ups. The trace may
end while the loop would still be running (`RunOutcome.running`); a crash
consumes no further wake-ups. -/
def loop_run (st : LoopState) : List PassInput → RunResult
  | [] => ⟨st, [], if st.done then RunOutcome.stopped else RunOutcome.running⟩
  | inp :: rest =>
    if st.done then ⟨st, [], RunOutcome.stopped⟩
    else
      match (loop_iter st inp).2.2 with
      | IterStatus.crash =>
        ⟨(loop_iter st inp).2.1, [(loop_iter st inp).1], RunOutcome.crashed⟩
      | IterStatus.stop =>
        ⟨(loop_iter st inp).2.1, [(loop_iter st inp).1], RunOutcome.stopped⟩
      | IterStatus.cont =>
        ⟨(loop_run (loop_iter st inp).2.1 rest).final,
         (loop_iter st inp).1 :: (loop_run (loop_iter st inp).2.1 rest).records,
         (loop_run (loop_iter st inp).2.1 rest).outcome⟩

/-- `Syncer.__init__` lines 65-67: list the remote directory and call
`_copy_file` on every remote entry; the local directory is never listed and no
change detection is consulted. Returns the names pushed, in listing order. -/
def syncer_init_copies (remote_ents : List (String × FileStat)) : List String :=
  remote_ents.map Prod.fst

/- Concrete inputs used by witnesses and counterexamples. -/

def nm0 : String := "f0.txt"

def nmA : String := "a"

def nmG : String := "g"

def exStat : FileStat := ⟨6, 1000000000, false⟩

def exRemoteEnts : List (String × FileStat) := [(nm0, exStat)]

def exLocalEnts : List (String × FileStat) := [(nm0, exStat)]

def ex_outcomes3 : Nat → CopyAttempt :=
  fun n => if n < 2 then CopyAttempt.opError else CopyAttempt.success

def ex_allfail : Nat → CopyAttempt := fun _ => CopyAttempt.opError

def exInp (b : Bool) (t : Int) (ls : Except Unit (List (String × FileStat))) : PassInput :=
  ⟨b, t, ls, fun _ => true⟩

def c6_trace : List PassInput :=
  [exInp false 100 (Except.ok [(nmA, exStat)]),
   exInp false 360 (Except.ok [(nmA, exStat)]),
   exInp false 420 (Except.ok [(nmA, exStat)])]

def c9_trace : List PassInput :=
  [exInp false 1 (Except.ok [(nmA, exStat)]),
   exInp false 2 (Except.error ()),
   exInp false 3 (Except.ok [(nmA, exStat)])]

def ex2_inp : PassInput := exInp false 1 (Except.ok [(nmA, exStat)])

def ex7_inp : PassInput := exInp true 1 (Except.ok [(nmA, exStat)])

def ex9_inp : PassInput := exInp false 1 (Except.error ())

def ex5_got : FileStat := ⟨6, 2500000000, false⟩

def ex5_ents : List (String × FileStat) := [(nmG, ex5_got)]

def ex5_want : FileStat := ⟨6, 0, false⟩

/-! ### Lemmas about `_copy_file` -/

theorem copy_file_go_allfail (outcomes : Nat → CopyAttempt) :
    ∀ fuel r, (∀ j, r ≤ j → j < r + fuel → outcomes j = CopyAttempt.opError) →
      copy_file_go outcomes fuel r = some ⟨retry_events fuel r, false⟩ := by
  intro fuel
  induction fuel with
  | zero => intro r _; rfl
  | succ k ih =>
    intro r h
    have hr : outcomes r = CopyAttempt.opError := h r le_rfl (by omega)
    have hrec := ih (r + 1) (fun j hj1 hj2 => h j (by omega) (by omega))
    simp [copy_file_go, hr, hrec, retry_events]

theorem copy_file_go_first_success (outcomes : Nat → CopyAttempt) :
    ∀ fuel r k, r ≤ k → k < r + fuel → outcomes k = CopyAttempt.success →
      (∀ j, r ≤ j → j < k → outcomes j = CopyAttempt.opError) →
      copy_file_go outcomes fuel r =
        some ⟨retry_events (k - r) r ++ [CopyEvent.attempt k], true⟩ := by
  intro fuel
  induction fuel with
  | zero => intro r k h1 h2 _ _; omega
  | succ m ih =>
    intro r k h1 h2 hk hfail
    rcases Nat.eq_or_lt_of_le h1 with heq | hlt
    · subst heq
      simp [copy_file_go, hk, retry_events]
    · have hr : outcomes r = CopyAttempt.opError := hfail r le_rfl hlt
      have hrec := ih (r + 1) k hlt (by omega) hk (fun j hj1 hj2 => hfail j (by omega) hj2)
      have hkr : k - r = (k - (r + 1)) + 1 := by omega
      simp [copy_file_go, hr, hrec, hkr, retry_events]

theorem copy_file_go_attempts_le (outcomes : Nat → CopyAttempt) :
    ∀ fuel r t, copy_file_go outcomes fuel r = some t → numAttempts t ≤ fuel := by
  intro fuel
  induction fuel with
  | zero =>
    intro r t ht
    simp only [copy_file_go, Option.some.injEq] at ht
    subst ht
    simp [numAttempts]
  | succ m ih =>
    intro r t ht
    cases h : outcomes r with
    | success =>
      rw [copy_file_go, h] at ht
      simp only [Option.some.injEq] at ht
      subst ht
      simp [numAttempts, isAttempt]
    | opError =>
      rw [copy_file_go, h] at ht
      cases hgo : copy_file_go outcomes m (r + 1) with
      | none => rw [hgo] at ht; simp at ht
      | some u =>
        rw [hgo] at ht
        simp only [Option.map_some', Option.some.injEq] at ht
        subst ht
        have := ih (r + 1) u hgo
        simp [numAttempts, List.countP_cons, isAttempt] at this ⊢
        omega
    | otherError =>
      rw [copy_file_go, h] at ht
      simp at ht

/-- C3: `_copy_file` attempts the underlying storage copy at most 10 times;
after each attempt that fails with a recoverable storage error it sleeps
`1.5 ** attempt` seconds (attempt numbered from 0) before the next attempt
(encoded by `retry_events`, which interleaves each failed attempt with its
backoff sleep); it returns immediately on the first success, its trace ending
at that attempt; and if all 10 attempts fail it returns normally (`some`)
to the caller instead of raising. -/
theorem copy_file_retry_policy (outcomes : Nat → CopyAttempt) :
    (∀ t, copy_file outcomes = some t → numAttempts t ≤ 10) ∧
    (∀ k, k < 10 → outcomes k = CopyAttempt.success →
      (∀ j, j < k → outcomes j = CopyAttempt.opError) →
      copy_file outcomes = some ⟨retry_events k 0 ++ [CopyEvent.attempt k], true⟩) ∧
    ((∀ j, j < 10 → outcomes j = CopyAttempt.opError) →
      copy_file outcomes = some ⟨retry_events 10 0, false⟩) := by
  refine ⟨fun t ht => copy_file_go_attempts_le outcomes 10 0 t ht, ?_, ?_⟩
  · intro k hk hks hkf
    have h := copy_file_go_first_success outcomes 10 0 k (Nat.zero_le k) (by omega) hks
      (fun j _ hj2 => hkf j hj2)
    simpa [copy_file] using h
  · intro h
    exact copy_file_go_allfail outcomes 10 0 (fun j _ hj2 => h j (by omega))

theorem copy_file_retry_policy_witness :
    copy_file ex_outcomes3 = some ⟨retry_events 2 0 ++ [CopyEvent.attempt 2], true⟩ :=
  (copy_file_retry_policy ex_outcomes3).2.1 2 (by decide) (by decide)
    (by decide)

/-- C10: when every attempt fails with a recoverable storage error,
`_copy_file` sleeps after every failed attempt including the final (10th) one:
the full sequence of sleep durations is `1.5 ** 0, ..., 1.5 ** 9`, and the
last event of the run is the sleep of `1.5 ** 9` seconds, occurring after the
last attempt and before returning to the caller. -/
theorem copy_file_sleeps_after_final_attempt (outcomes : Nat → CopyAttempt)
    (h : ∀ j, j < 10 → outcomes j = CopyAttempt.opError) :
    copy_file outcomes = some ⟨retry_events 10 0, false⟩ ∧
    (retry_events 10 0).filterMap sleepDur = (List.range 10).map sleep_len ∧
    (retry_events 10 0).getLast? = some (CopyEvent.sleep (sleep_len 9)) := by
  refine ⟨copy_file_go_allfail outcomes 10 0 (fun j _ hj2 => h j (by omega)), ?_, ?_⟩
  · rfl
  · rfl

theorem copy_file_sleeps_after_final_attempt_witness :
    copy_file ex_allfail = some ⟨retry_events 10 0, false⟩ ∧
    (retry_events 10 0).filterMap sleepDur = (List.range 10).map sleep_len ∧
    (retry_events 10 0).getLast? = some (CopyEvent.sleep (sleep_len 9)) :=
  copy_file_sleeps_after_final_attempt ex_allfail (fun _ _ => rfl)

/-! ### Lemmas about the snapshot association list and the pass body -/

theorem lookupEnt_upsert_self (s : List (String × FileStat)) (n : String) (e : FileStat) :
    lookupEnt (upsert s n e) n = some e := by
  induction s with
  | nil => simp [upsert, lookupEnt]
  | cons p rest ih =>
    obtain ⟨pn, pe⟩ := p
    by_cases h : pn = n
    · simp [upsert, h, lookupEnt]
    · simp [upsert, h, lookupEnt, ih]

theorem lookupEnt_upsert_ne (s : List (String × FileStat)) (n m : String) (e : FileStat)
    (hnm : n ≠ m) : lookupEnt (upsert s n e) m = lookupEnt s m := by
  induction s with
  | nil => simp [upsert, lookupEnt, hnm]
  | cons p rest ih =>
    obtain ⟨pn, pe⟩ := p
    by_cases h : pn = n
    · subst h
      simp [upsert, lookupEnt, hnm]
    · simp [upsert, h, lookupEnt, ih]

theorem has_file_upsert_ne (s : List (String × FileStat)) (n m : String)
    (e w : FileStat) (hnm : n ≠ m) :
    has_file (upsert s n e) m w = has_file s m w := by
  simp [has_file, lookupEnt_upsert_ne s n m e hnm]

theorem pass_body_lookup_of_not_mem (copyOk : String → Bool)
    (ents : List (String × FileStat)) :
    ∀ s name, name ∉ ents.map Prod.fst →
      lookupEnt (pass_body copyOk s ents).1 name = lookupEnt s name := by
  induction ents with
  | nil => intro s name _; rfl
  | cons p rest ih =>
    intro s name h
    obtain ⟨n, e⟩ := p
    simp only [List.map_cons, List.mem_cons, not_or] at h
    by_cases hf : has_file s n e
    · simp only [pass_body, hf, if_true]
      exact ih s name h.2
    · rw [pass_body, if_neg (by simp [hf])]
      rw [ih (upsert s n e) name h.2]
      exact lookupEnt_upsert_ne s n name e (fun hh => h.1 hh.symm)

theorem pass_body_spec (copyOk : String → Bool) (ents : List (String × FileStat)) :
    ∀ s name ent, (ents.map Prod.fst).Nodup → (name, ent) ∈ ents →
      has_file s name ent = false →
      (name, copyOk name) ∈ (pass_body copyOk s ents).2 ∧
      lookupEnt (pass_body copyOk s ents).1 name = some ent := by
  induction ents with
  | nil => intro s name ent _ hmem _; simp at hmem
  | cons p rest ih =>
    intro s name ent hnd hmem hneed
    obtain ⟨n, e⟩ := p
    simp only [List.map_cons, List.nodup_cons] at hnd
    rcases List.mem_cons.mp hmem with hhd | htl
    · injection hhd with hn he
      subst hn; subst he
      rw [pass_body, if_neg (by simp [hneed])]
      constructor
      · exact List.mem_cons_self _ _
      · rw [pass_body_lookup_of_not_mem copyOk rest (upsert s name ent) name hnd.1]
        exact lookupEnt_upsert_self s name ent
    · have hname_mem : name ∈ rest.map Prod.fst :=
        List.mem_map.mpr ⟨(name, ent), htl, rfl⟩
      have hne : n ≠ name := fun hh => hnd.1 (hh ▸ hname_mem)
      by_cases hf : has_file s n e
      · simp only [pass_body, hf, if_true]
        exact ih s name ent hnd.2 htl hneed
      · rw [pass_body, if_neg (by simp [hf])]
        have hneed' : has_file (upsert s n e) name ent = false := by
          rw [has_file_upsert_ne s n name e ent hne]; exact hneed
        have hrec := ih (upsert s n e) name ent hnd.2 htl hneed'
        exact ⟨List.mem_cons_of_mem _ hrec.1, hrec.2⟩

/-- C2: in a watch-loop pass whose local listing succeeded, every freshly
listed entry that the strict change detector (`_has_file` against the pass's
diff base) reports as needing a copy is pushed via the retrying copier (its
name appears in the pass's copied list, paired with whatever outcome the
copier had) and the remembered snapshot entry is updated to the freshly
observed stat. The conclusion holds for every `inp.copyOk`, i.e. regardless of
whether the copy succeeded or exhausted all its retries. -/
theorem watch_pass_pushes_and_updates (st : LoopState) (inp : PassInput)
    (new_ents : List (String × FileStat)) (name : String) (ent : FileStat)
    (hls : inp.listing = Except.ok new_ents)
    (hnd : (new_ents.map Prod.fst).Nodup)
    (hmem : (name, ent) ∈ new_ents)
    (hneed : has_file (diff_base st inp) name ent = false) :
    (name, inp.copyOk name) ∈ (loop_iter st inp).1.copied ∧
    lookupEnt ((loop_iter st inp).2.1.src_ents) name = some ent := by
  have h := pass_body_spec inp.copyOk new_ents (diff_base st inp) name ent hnd hmem hneed
  simp only [loop_iter, hls]
  exact h

theorem watch_pass_pushes_and_updates_witness :
    (nmA, true) ∈ (loop_iter (init_state 0) ex2_inp).1.copied ∧
    lookupEnt ((loop_iter (init_state 0) ex2_inp).2.1.src_ents) nmA = some exStat :=
  watch_pass_pushes_and_updates (init_state 0) ex2_inp [(nmA, exStat)] nmA exStat rfl
    (by decide) (by decide) (by decide)

/-- C4: the strict-mode change detector (the negation of `_has_file`) reports
a copy as needed exactly when the name is absent from the snapshot, or the
candidate's size differs from the snapshot entry's size, or the modification
times differ at nanosecond granularity. The embedding is a pure function, so
the comparison has no side effects. -/
theorem strict_needs_copy_iff (snap : List (String × FileStat)) (name : String)
    (cand : FileStat) :
    ((!has_file snap name cand) = true ↔
      lookupEnt snap name = none ∨
      ∃ got, lookupEnt snap name = some got ∧
        (got.length ≠ cand.length ∨ got.mtime_nsec ≠ cand.mtime_nsec)) := by
  cases h : lookupEnt snap name with
  | none => simp [has_file, h]
  | some got =>
    by_cases h1 : got.length = cand.length
    · by_cases h2 : got.mtime_nsec = cand.mtime_nsec
      · simp [has_file, h, h1, h2]
      · simp [has_file, h, h1, h2]
    · simp [has_file, h, h1]

/-- C5: in the tolerant mode of the change detector, for an entry present in
the snapshot with equal size, no copy is needed exactly when the modification
times differ by at most 3 seconds (3e9 ns); a difference of more than 3
seconds means a copy is needed. -/
theorem tolerant_mode_time_window (ents : List (String × FileStat)) (name : String)
    (got want : FileStat) (hlk : lookupEnt ents name = some got)
    (hsz : got.length = want.length) :
    (needs_copy DetectMode.tolerant ents name want = false ↔
      (got.mtime_nsec - want.mtime_nsec).natAbs ≤ 3000000000) := by
  by_cases h : 3000000000 < (got.mtime_nsec - want.mtime_nsec).natAbs <;>
    simp [needs_copy, has_file_tolerant, hlk, hsz, h]
  all_goals omega

theorem tolerant_mode_time_window_witness :
    (needs_copy DetectMode.tolerant ex5_ents nmG ex5_want = false ↔
      (ex5_got.mtime_nsec - ex5_want.mtime_nsec).natAbs ≤ 3000000000) :=
  tolerant_mode_time_window ex5_ents nmG ex5_got ex5_want (by decide) rfl

/-- C1 counterexample: the remote entry `f0.txt` has an exactly matching local
entry - it matches under the strict detector and hence also in tolerant mode -
yet the construction-time pass still copies it: `Syncer.__init__` pushes every
remote entry without consulting the local listing or the change detector. -/
theorem init_copies_matching_entry_cex :
    has_file_tolerant exLocalEnts nm0 exStat = true ∧
    has_file exLocalEnts nm0 exStat = true ∧
    nm0 ∈ syncer_init_copies exRemoteEnts := by decide

/-- C1 amended: the construction-time reconciliation lists the remote
directory and copies every remote entry remote-to-local unconditionally: a
name is copied exactly when it is a remote entry, matching local entries
included. -/
theorem init_copies_all_remote (remote_ents : List (String × FileStat)) (name : String) :
    name ∈ syncer_init_copies remote_ents ↔ ∃ ent, (name, ent) ∈ remote_ents := by
  constructor
  · intro h
    rcases List.mem_map.mp h with ⟨⟨a, b⟩, hab, rfl⟩
    exact ⟨b, hab⟩
  · rintro ⟨ent, hent⟩
    exact List.mem_map.mpr ⟨(name, ent), hent, rfl⟩

/-! ### Lemmas and claims about the watch loop -/

theorem diff_base_of_stopping (st : LoopState) (inp : PassInput)
    (hstop : inp.stopping = true) : diff_base st inp = [] := by
  simp [diff_base, hstop]

/-- C7: when the watch loop observes the stopping flag at a wake-up, it
performs exactly one more pass whose diff base is the forcibly cleared
snapshot (a full re-diff against the live local listing) and then exits: the
run over the remaining trace consists of that single pass, ends in the
`stopped` outcome, and consumes none of the later wake-ups - `stop()`'s
`join` returns once `loop_run` has produced this result. -/
theorem stop_triggers_final_full_pass (st : LoopState) (inp : PassInput)
    (rest : List PassInput) (new_ents : List (String × FileStat))
    (hdone : st.done = false) (hstop : inp.stopping = true)
    (hls : inp.listing = Except.ok new_ents) :
    (loop_run st (inp :: rest)).outcome = RunOutcome.stopped ∧
    (loop_run st (inp :: rest)).records = [(loop_iter st inp).1] ∧
    (loop_iter st inp).1.diffBase = [] ∧
    loop_run st (inp :: rest) = loop_run st [inp] := by
  have hbase : diff_base st inp = [] := diff_base_of_stopping st inp hstop
  have hstatus : (loop_iter st inp).2.2 = IterStatus.stop := by
    simp [loop_iter, hls, hstop]
  have hrec : (loop_iter st inp).1.diffBase = [] := by
    simp [loop_iter, hls, hbase]
  refine ⟨?_, ?_, hrec, ?_⟩ <;> simp [loop_run, hdone, hstatus]

theorem stop_triggers_final_full_pass_witness :
    (loop_run (init_state 0) (ex7_inp :: [ex2_inp])).outcome = RunOutcome.stopped ∧
    (loop_run (init_state 0) (ex7_inp :: [ex2_inp])).records = [(loop_iter (init_state 0) ex7_inp).1] ∧
    (loop_iter (init_state 0) ex7_inp).1.diffBase = [] ∧
    loop_run (init_state 0) (ex7_inp :: [ex2_inp]) = loop_run (init_state 0) [ex7_inp] :=
  stop_triggers_final_full_pass (init_state 0) ex7_inp [ex2_inp] [(nmA, exStat)] rfl rfl rfl

theorem loop_iter_epoch (st : LoopState) (inp : PassInput) :
    (loop_iter st inp).2.1.epoch = st.epoch + 1 := by
  cases h : inp.listing <;> simp [loop_iter, h]

theorem loop_run_epoch_len (trace : List PassInput) :
    ∀ st, (loop_run st trace).final.epoch = st.epoch + (loop_run st trace).records.length := by
  induction trace with
  | nil => intro st; simp [loop_run]
  | cons inp rest ih =>
    intro st
    by_cases hd : st.done
    · simp [loop_run, hd]
    · cases hs : (loop_iter st inp).2.2 <;>
        simp [loop_run, hd, hs, loop_iter_epoch, ih]
      all_goals omega

/-- C8: the epoch counter starts at 0 at construction, every loop iteration
increments it by exactly 1 (the increment is the first action of
`loop_iter`, before the wake-up's observations are consumed, i.e. before the
wait returns), a run's final epoch is the initial epoch plus the number of
passes performed, and no run ever decreases it. -/
theorem epoch_monotone :
    (∀ t : Int, (init_state t).epoch = 0) ∧
    (∀ st inp, (loop_iter st inp).2.1.epoch = st.epoch + 1) ∧
    (∀ st trace, (loop_run st trace).final.epoch =
      st.epoch + (loop_run st trace).records.length) ∧
    (∀ st trace, st.epoch ≤ (loop_run st trace).final.epoch) :=
  ⟨fun _ => rfl, loop_iter_epoch,
   fun st trace => loop_run_epoch_len trace st,
   fun st trace => by rw [loop_run_epoch_len trace st]; omega⟩

/-- C6 (behaviour at the failing input): `last_full_sync_time` is initialized
once before the loop (line 102) and never updated afterwards, so the
periodic-full-sync condition `now - last_full_sync_time >= 360` keeps holding
forever once the loop has been running for 6 minutes. Starting at `t0 = 0`
with passes at times 100, 360 and 420 over an unchanged local file, the pass
at 420 clears the snapshot (and re-copies the unchanged file) even though the
most recent full pass happened only 60 seconds earlier at t=360, contradicting
the claim that the elapsed-time measurement restarts from each full pass. -/
theorem full_sync_timer_never_resets :
    ((loop_run (init_state 0) c6_trace).records.map PassRecord.fullSync
      = [false, true, true]) ∧
    ((loop_run (init_state 0) c6_trace).records.map
      (fun r => r.copied.map Prod.fst) = [[nmA], [nmA], [nmA]]) := by decide

/-- C9 counterexample: with three wake-ups of which the second raises a
listing error, the loop executes only two passes and the run ends `crashed`:
the uncaught exception terminates the loop thread, so the loop does not
continue and performs no further passes on subsequent wakes. -/
theorem listing_error_no_further_passes_cex :
    (loop_run (init_state 0) c9_trace).outcome = RunOutcome.crashed ∧
    (loop_run (init_state 0) c9_trace).records.length = 2 ∧
    c9_trace.length = 3 := by decide

/-- C9 amended: a directory listing or stat error during a watch-loop pass is
not retried; it propagates, aborting that pass with no copies performed, and
it terminates the watch-loop thread entirely - the run ends `crashed` after
that single pass and no later wake-up is consumed. -/
theorem listing_error_terminates_loop (st : LoopState) (inp : PassInput)
    (rest : List PassInput) (hdone : st.done = false)
    (herr : inp.listing = Except.error ()) :
    (loop_run st (inp :: rest)).outcome = RunOutcome.crashed ∧
    (loop_run st (inp :: rest)).records.map PassRecord.listFailed = [true] ∧
    (∀ r ∈ (loop_run st (inp :: rest)).records, r.copied = []) ∧
    loop_run st (inp :: rest) = loop_run st [inp] := by
  have hstatus : (loop_iter st inp).2.2 = IterStatus.crash := by
    simp [loop_iter, herr]
  have hrec1 : (loop_iter st inp).1.listFailed = true := by
    simp [loop_iter, herr]
  have hrec2 : (loop_iter st inp).1.copied = [] := by
    simp [loop_iter, herr]
  refine ⟨?_, ?_, ?_, ?_⟩ <;> simp [loop_run, hdone, hstatus, hrec1, hrec2]

theorem listing_error_terminates_loop_witness :
    (loop_run (init_state 0) (ex9_inp :: [ex2_inp])).outcome = RunOutcome.crashed ∧
    (loop_run (init_state 0) (ex9_inp :: [ex2_inp])).records.map PassRecord.listFailed = [true] ∧
    (∀ r ∈ (loop_run (init_state 0) (ex9_inp :: [ex2_inp])).records, r.copied = []) ∧
    loop_run (init_state 0) (ex9_inp :: [ex2_inp]) = loop_run (init_state 0) [ex9_inp] :=
  listing_error_terminates_loop (init_state 0) ex9_inp [ex2_inp] rfl rfl
